import Mathlib

/-!
Shallow embedding of the SBT registry contract
(src/contracts/registry/src/lib.rs of kalloc/i-am-human).

Accounts are strings; the u64 ids of the source are modelled as Nat
(no claim depends on 64-bit wraparound).  The persistent NEAR maps
(LookupMap, UnorderedMap, UnorderedSet) are modelled as point-lookup
functions with overwrite-on-insert, matching their get/insert API.
Functions that can panic in the source (require!, expect, panic_str)
return Except String, carrying the panic message.
-/

namespace Registry

abbrev AccountId := String

/-- Modelled from the spec: storage.rs is not under src/; CtrTokenId is the
composite key (issuer id, token id) used by the token store and by the
soul-transfer cursor, visible from its use in lib.rs lines 72-75. -/
structure CtrTokenId where
  ctr_id : Nat
  token : Nat
deriving DecidableEq, Repr

/-- Modelled from the spec: storage.rs is not under src/; CtrClassId is the
composite key (issuer id, class id) of the per-owner balance index. -/
structure CtrClassId where
  ctr_id : Nat
  class_id : Nat
deriving DecidableEq, Repr

/-- Modelled from the spec: token metadata from the external sbt crate;
only the class id matters to the registry core, the rest is opaque. -/
structure TokenMetadata where
  class_id : Nat
deriving DecidableEq, Repr

/-- Modelled from the spec: TokenData from the external sbt crate, the
authoritative token record (owner plus metadata). -/
structure TokenData where
  owner : AccountId
  metadata : TokenMetadata
deriving DecidableEq, Repr

/-- Overwrite-on-insert update of a point-lookup map, the behaviour of
LookupMap and UnorderedMap insert. -/
def mapInsert {α β : Type} [DecidableEq α] (m : α → Option β) (k : α) (v : β) :
    α → Option β :=
  fun x => if x = k then some v else m x

/-- Insertion into a set, the behaviour of UnorderedSet insert. -/
def setInsert (s : AccountId → Bool) (k : AccountId) : AccountId → Bool :=
  fun x => if x = k then true else s x

/-- The contract state, field for field from the Contract struct
(lib.rs lines 14-31). -/
structure Contract where
  admin : AccountId
  sbt_contracts : AccountId → Option Nat
  ctr_id_map : Nat → Option AccountId
  banlist : AccountId → Bool
  balances : AccountId → CtrClassId → Option Nat
  ctr_tokens : CtrTokenId → Option TokenData
  next_token_ids : Nat → Option Nat
  next_ctr_id : Nat
  ongoing_soul_tx : AccountId → Option CtrTokenId

/-- Contract::new (lib.rs lines 37-49): empty maps, next_ctr_id = 1. -/
def Contract.new (admin : AccountId) : Contract where
  admin := admin
  sbt_contracts := fun _ => none
  ctr_id_map := fun _ => none
  banlist := fun _ => false
  balances := fun _ _ => none
  ctr_tokens := fun _ => none
  next_token_ids := fun _ => none
  next_ctr_id := 1
  ongoing_soul_tx := fun _ => none

/-- next_token_id (lib.rs lines 116-120): reads the counter of the issuer
(0 when absent), stores counter + num back, and returns counter + 1. -/
def next_token_id (st : Contract) (ctr : Nat) (num : Nat) : Nat × Contract :=
  let tid := (st.next_token_ids ctr).getD 0
  (tid + 1, { st with next_token_ids := mapInsert st.next_token_ids ctr (tid + num) })

/-- assert_not_banned (lib.rs lines 123-128): require! that the owner is
not in the banlist, with the panic message of the source. -/
def assert_not_banned (st : Contract) (owner : AccountId) : Except String Unit :=
  if st.banlist owner then .error ("account " ++ owner ++ " is banned")
  else .ok ()

/-- ctr_id (lib.rs lines 98-101): look the issuer account up in
sbt_contracts, panicking with the message of the source when absent
(the NotAnIssuer failure of the spec taxonomy). -/
def ctr_id (st : Contract) (ctr : AccountId) : Except String Nat :=
  match st.sbt_contracts ctr with
  | some i => .ok i
  | none => .error "SBT Issuer not found"

/-- The cursor read at the start of sbt_soul_transfer (lib.rs lines 72-75):
ongoing_soul_tx is read under the destination argument to, defaulting to
(ctr_id 0, token 0) when absent. -/
def soulTransferStart (st : Contract) (dst : AccountId) : CtrTokenId :=
  (st.ongoing_soul_tx dst).getD ⟨0, 0⟩

/-- sbt_soul_transfer (lib.rs lines 71-79): reads the cursor, then
unconditionally panics with "not implemented"; nothing is ever written. -/
def sbt_soul_transfer (st : Contract) (dst : AccountId) :
    Except String ((AccountId × Nat × Bool) × Contract) :=
  let _start := soulTransferStart st dst
  .error "not implemented"

/-- admin_add_sbt_issuer (lib.rs lines 86-92): after the admin check,
inserts issuer -> next_ctr_id (overwriting any previous binding and
remembering it), inserts the reverse binding, increments next_ctr_id and
returns whether the issuer was previously absent. -/
def admin_add_sbt_issuer (caller : AccountId) (st : Contract) (issuer : AccountId) :
    Except String (Bool × Contract) :=
  if caller = st.admin then
    let previous := st.sbt_contracts issuer
    .ok (previous.isNone,
      { st with
        sbt_contracts := mapInsert st.sbt_contracts issuer st.next_ctr_id
        ctr_id_map := mapInsert st.ctr_id_map st.next_ctr_id issuer
        next_ctr_id := st.next_ctr_id + 1 })
  else .error "not an admin"

/-- A run of admin issuer registrations, aborting on the first panic. -/
def registerAll (caller : AccountId) : Contract → List AccountId → Except String Contract
  | st, [] => .ok st
  | st, a :: l =>
    match admin_add_sbt_issuer caller st a with
    | .ok p => registerAll caller p.2 l
    | .error e => .error e

/-- Modelled from the spec: the token-record and owner-index writes of one
mint group (spec 4.5 step 2): for the k-th request the record
(ctr, first + k) -> (owner, metadata) is stored and the owner index entry
for (ctr, class) is upserted to first + k. -/
def putTokens (ctr : Nat) (owner : AccountId) (first : Nat) :
    Contract → List TokenMetadata → Contract
  | st, [] => st
  | st, md :: rest =>
    let st1 := { st with
      ctr_tokens := mapInsert st.ctr_tokens ⟨ctr, first⟩ ⟨owner, md⟩
      balances := fun u =>
        if u = owner then mapInsert (st.balances owner) ⟨ctr, md.class_id⟩ first
        else st.balances u }
    putTokens ctr owner (first + 1) st1 rest

/-- Modelled from the spec: one (owner, requests) group of a mint batch
(spec 4.5 step 2): fail with the banned-recipient panic if the owner is
banned, reserve requests.length ids through the real next_token_id of
lib.rs, write the records, and return the reserved ids in order. -/
def mintOne (ctr : Nat) (st : Contract) (owner : AccountId)
    (mds : List TokenMetadata) : Except String (List Nat × Contract) :=
  if st.banlist owner then .error ("account " ++ owner ++ " is banned")
  else
    let p := next_token_id st ctr mds.length
    .ok ((List.range mds.length).map (fun k => p.1 + k),
         putTokens ctr owner p.1 p.2 mds)

/-- Modelled from the spec: the per-group loop of mint (spec 4.5 step 2),
concatenating the id lists of the groups in input order. -/
def mintBatch (ctr : Nat) :
    Contract → List (AccountId × List TokenMetadata) →
    Except String (List Nat × Contract)
  | st, [] => .ok ([], st)
  | st, g :: rest => do
    let (ids, st1) ← mintOne ctr st g.1 g.2
    let (rids, st2) ← mintBatch ctr st1 rest
    .ok (ids ++ rids, st2)

/-- Modelled from the spec: sbt_mint (MintEngine, spec 4.5); registry.rs,
where sbt_mint lives, is not under src/.  Resolves the caller to its
issuer id through the real ctr_id of lib.rs (step 1), then runs the
batch loop and returns the flat, order-preserving id list (step 3). -/
def sbt_mint (caller : AccountId) (st : Contract)
    (batch : List (AccountId × List TokenMetadata)) :
    Except String (List Nat × Contract) := do
  let ctr ← ctr_id st caller
  mintBatch ctr st batch

/-- Metadata with a given class id, mirroring mk_metadata of the test. -/
def md (c : Nat) : TokenMetadata := ⟨c⟩

/-- The worked mint example (spec 8, test tests::mint): set up the contract
with two issuers as the test setup does, then run the three mint batches,
collecting the three returned id lists. -/
def mintScenario : Except String (List Nat × List Nat × List Nat) := do
  let st0 := Contract.new "sbt.near"
  let (_, st1) ← admin_add_sbt_issuer "sbt.near" st0 "sbt1.near"
  let (_, st2) ← admin_add_sbt_issuer "sbt.near" st1 "sbt2.near"
  let (ids1, st3) ← sbt_mint "sbt1.near" st2
    [("alice.near", [md 1]), ("bob.near", [md 1]), ("alice.near", [md 2])]
  let (ids2, st4) ← sbt_mint "sbt1.near" st3 [("alice.near", [md 4])]
  let (ids3, _) ← sbt_mint "sbt2.near" st4 [("alice.near", [md 1, md 2])]
  .ok (ids1, ids2, ids3)

/-- State after registering the single issuer sbt1.near on a fresh
contract whose admin is sbt.near. -/
def stOne : Contract :=
  match admin_add_sbt_issuer "sbt.near" (Contract.new "sbt.near") "sbt1.near" with
  | .ok p => p.2
  | .error _ => Contract.new "sbt.near"

/-- The result of registering alice.near twice in a row on a fresh
contract (admin calling both times). -/
def regTwiceResult : Except String (Bool × Contract) :=
  match admin_add_sbt_issuer "admin.near" (Contract.new "admin.near") "alice.near" with
  | .ok p => admin_add_sbt_issuer "admin.near" p.2 "alice.near"
  | .error e => .error e

/-- The state reached by registering alice.near twice in a row. -/
def stTwice : Contract :=
  match regTwiceResult with
  | .ok p => p.2
  | .error _ => Contract.new "admin.near"

/-- State after registering the distinct issuers a.near then b.near. -/
def stAB : Contract :=
  match registerAll "admin.near" (Contract.new "admin.near") ["a.near", "b.near"] with
  | .ok st => st
  | .error _ => Contract.new "admin.near"

/-- A state in which a soul-transfer cursor is stored for alice.near at
position (issuer 1, token 5) and for nobody else. -/
def stCursor : Contract :=
  { Contract.new "admin.near" with
    ongoing_soul_tx := mapInsert (fun _ => none) "alice.near" ⟨1, 5⟩ }

/-- A state in which bob.near is banned. -/
def stBanned : Contract :=
  { Contract.new "admin.near" with
    banlist := setInsert (Contract.new "admin.near").banlist "bob.near" }

/-- The issuer maps are mutual inverses (the claimed registry invariant). -/
def InverseMaps (st : Contract) : Prop :=
  ∀ a i, st.sbt_contracts a = some i ↔ st.ctr_id_map i = some a

/-- Every assigned issuer id lies in the interval from 1 up to, but not
including, next_ctr_id. -/
def IdsBounded (st : Contract) : Prop :=
  ∀ a i, st.sbt_contracts a = some i → 1 ≤ i ∧ i < st.next_ctr_id

/-- The registration invariant: inverse maps, bounded ids, positive
counter. -/
def RegInv (st : Contract) : Prop :=
  InverseMaps st ∧ IdsBounded st ∧ 1 ≤ st.next_ctr_id

/-- C4: next_token_id returns the old counter of the issuer plus 1 (the
counter reads as 0 when the issuer never minted, so the first id is 1)
and leaves the stored counter equal to the old counter plus num, which
makes the reserved range the num contiguous ids from counter + 1. -/
theorem c4_next_token_id_allocates (st : Contract) (ctr : Nat) (num : Nat) :
    (next_token_id st ctr num).1 = (st.next_token_ids ctr).getD 0 + 1 ∧
    (next_token_id st ctr num).2.next_token_ids ctr =
      some ((st.next_token_ids ctr).getD 0 + num) := by
  refine ⟨rfl, ?_⟩
  simp [next_token_id, mapInsert]

/-- C10: a zero-count allocation leaves the counter value of the issuer
unchanged and returns counter + 1, and the next allocation of any count
for that issuer returns the same first id. -/
theorem c10_zero_count_allocation (st : Contract) (ctr : Nat) (m : Nat) :
    (next_token_id st ctr 0).1 = (st.next_token_ids ctr).getD 0 + 1 ∧
    ((next_token_id st ctr 0).2.next_token_ids ctr).getD 0 =
      (st.next_token_ids ctr).getD 0 ∧
    (next_token_id (next_token_id st ctr 0).2 ctr m).1 =
      (next_token_id st ctr 0).1 := by
  refine ⟨rfl, ?_, ?_⟩ <;> simp [next_token_id, mapInsert]

/-- C5: two consecutive allocations for one issuer reserve disjoint id
ranges, and every id of the first range is strictly below every id of the
second, so repeated allocations yield strictly increasing ranges (a
zero-count range is empty and the comparison holds vacuously). -/
theorem c5_consecutive_ranges_disjoint (st st1 st2 : Contract) (ctr : Nat)
    (n m r1 r2 : Nat)
    (h1 : next_token_id st ctr n = (r1, st1))
    (h2 : next_token_id st1 ctr m = (r2, st2)) :
    Disjoint (Finset.Icc r1 (r1 + n - 1)) (Finset.Icc r2 (r2 + m - 1)) ∧
    ∀ x ∈ Finset.Icc r1 (r1 + n - 1), ∀ y ∈ Finset.Icc r2 (r2 + m - 1), x < y := by
  have e1 : r1 = (st.next_token_ids ctr).getD 0 + 1 := by
    have h := congrArg Prod.fst h1
    simpa [next_token_id] using h.symm
  have es : st1.next_token_ids ctr = some ((st.next_token_ids ctr).getD 0 + n) := by
    have h := congrArg Prod.snd h1
    simp only [next_token_id] at h
    rw [← h]
    simp [mapInsert]
  have e2 : r2 = (st.next_token_ids ctr).getD 0 + n + 1 := by
    have h := congrArg Prod.fst h2
    simp only [next_token_id, es] at h
    simpa using h.symm
  constructor
  · rw [Finset.disjoint_left]
    intro x hx hy
    simp only [Finset.mem_Icc] at hx hy
    omega
  · intro x hx y hy
    simp only [Finset.mem_Icc] at hx hy
    omega

/-- Witness for C5 at a fresh contract with n = 2 then m = 3: the ranges
are 1..2 and 3..5. -/
theorem c5_witness :
    Disjoint (Finset.Icc 1 (1 + 2 - 1)) (Finset.Icc 3 (3 + 3 - 1)) ∧
    ∀ x ∈ Finset.Icc 1 (1 + 2 - 1), ∀ y ∈ Finset.Icc 3 (3 + 3 - 1), x < y :=
  c5_consecutive_ranges_disjoint (Contract.new "sbt.near")
    (next_token_id (Contract.new "sbt.near") 1 2).2
    (next_token_id (next_token_id (Contract.new "sbt.near") 1 2).2 1 3).2
    1 2 3 1 3 rfl rfl

/-- C9: sbt_soul_transfer unconditionally panics with "not implemented"
after the cursor read, for every state and destination; it never returns
a result triple and a panic produces no new state, so no token is moved
and no cursor is written or cleared. -/
theorem c9_soul_transfer_unimplemented (st : Contract) (dst : AccountId) :
    sbt_soul_transfer st dst = .error "not implemented" := rfl

/-- C1: the cursor read of sbt_soul_transfer is keyed by the destination
argument, not by the source caller.  With a cursor stored for the source
alice.near at (1, 5) and none for the destination bob.near, the read for
a call with destination bob.near yields the default (0, 0) and ignores
the cursor of alice.near, which the read only finds when alice.near is
the destination. -/
theorem c1_cursor_read_keyed_by_destination :
    soulTransferStart stCursor "bob.near" = ⟨0, 0⟩ ∧
    stCursor.ongoing_soul_tx "alice.near" = some ⟨1, 5⟩ ∧
    soulTransferStart stCursor "alice.near" = ⟨1, 5⟩ :=
  ⟨rfl, rfl, rfl⟩

/-- C7: with bob.near banned, sbt_soul_transfer to bob.near fails with the
"not implemented" panic and not with the banned-recipient failure: the
banlist check assert_not_banned exists and would fire for bob.near, but
sbt_soul_transfer never invokes it. -/
theorem c7_transfer_skips_ban_check :
    stBanned.banlist "bob.near" = true ∧
    assert_not_banned stBanned "bob.near" = .error "account bob.near is banned" ∧
    sbt_soul_transfer stBanned "bob.near" = .error "not implemented" :=
  ⟨rfl, rfl, rfl⟩

/-- C8: ctr_id fails with the issuer-not-found panic (the NotAnIssuer
failure of the spec) exactly on accounts absent from sbt_contracts, and
returns the registered id on the others. -/
theorem c8_ctr_id_fails_iff_unregistered (st : Contract) (a : AccountId) :
    (st.sbt_contracts a = none → ctr_id st a = .error "SBT Issuer not found") ∧
    (∀ i, st.sbt_contracts a = some i → ctr_id st a = .ok i) := by
  constructor
  · intro h
    simp [ctr_id, h]
  · intro i h
    simp [ctr_id, h]

/-- Witness for C8 on the state with the single registered issuer
sbt1.near: the registered account resolves to id 1, an unregistered
account fails. -/
theorem c8_witness :
    ctr_id stOne "sbt1.near" = .ok 1 ∧
    ctr_id stOne "nobody.near" = .error "SBT Issuer not found" :=
  ⟨(c8_ctr_id_fails_iff_unregistered stOne "sbt1.near").2 1 rfl,
   (c8_ctr_id_fails_iff_unregistered stOne "nobody.near").1 rfl⟩

/-- C6: the worked mint example returns the flat id lists in input order:
the first batch for alice, bob, alice under issuer sbt1.near yields
(1, 2, 3), the following batch for alice alone yields (4), and the batch
under the fresh issuer sbt2.near starts again at 1, yielding (1, 2). -/
theorem c6_mint_order_preserving :
    mintScenario = .ok ([1, 2, 3], [4], [1, 2]) := rfl

/-- The state produced by one registration call: both directions of the
mapping written, counter incremented. -/
def registerState (st : Contract) (a : AccountId) : Contract :=
  { st with
    sbt_contracts := mapInsert st.sbt_contracts a st.next_ctr_id
    ctr_id_map := mapInsert st.ctr_id_map st.next_ctr_id a
    next_ctr_id := st.next_ctr_id + 1 }

/-- Projection lemma: registerState increments the id counter. -/
theorem registerState_next (st : Contract) (a : AccountId) :
    (registerState st a).next_ctr_id = st.next_ctr_id + 1 := rfl

/-- Projection lemma: registerState keeps the admin. -/
theorem registerState_admin (st : Contract) (a : AccountId) :
    (registerState st a).admin = st.admin := rfl

/-- Projection lemma: the forward map after registerState. -/
theorem registerState_contracts (st : Contract) (a b : AccountId) :
    (registerState st a).sbt_contracts b =
      if b = a then some st.next_ctr_id else st.sbt_contracts b := rfl

/-- Projection lemma: the reverse map after registerState. -/
theorem registerState_map (st : Contract) (a : AccountId) (i : Nat) :
    (registerState st a).ctr_id_map i =
      if i = st.next_ctr_id then some a else st.ctr_id_map i := rfl

/-- When the admin calls, admin_add_sbt_issuer returns whether the issuer
was absent together with the registerState update. -/
theorem admin_add_eq (st : Contract) (a : AccountId) :
    admin_add_sbt_issuer st.admin st a =
      .ok ((st.sbt_contracts a).isNone, registerState st a) := by
  simp [admin_add_sbt_issuer, registerState]

/-- Registering a fresh account preserves the registration invariant. -/
theorem regInv_registerState (st : Contract) (a : AccountId)
    (hinv : RegInv st) (hfresh : st.sbt_contracts a = none) :
    RegInv (registerState st a) := by
  obtain ⟨hmaps, hbd, hpos⟩ := hinv
  refine ⟨?_, ?_, ?_⟩
  · intro b i
    rw [registerState_contracts, registerState_map]
    by_cases hb : b = a
    · by_cases hi : i = st.next_ctr_id
      · rw [if_pos hb, if_pos hi, hb, hi]
        simp
      · rw [if_pos hb, if_neg hi]
        constructor
        · intro h
          exact absurd (Option.some.inj h).symm hi
        · intro h
          have h2 := (hmaps b i).mpr h
          rw [hb, hfresh] at h2
          exact Option.noConfusion h2
    · by_cases hi : i = st.next_ctr_id
      · rw [if_neg hb, if_pos hi]
        constructor
        · intro h
          have h2 := (hbd b i h).2
          omega
        · intro h
          exact absurd (Option.some.inj h).symm hb
      · rw [if_neg hb, if_neg hi]
        exact hmaps b i
  · intro b i
    rw [registerState_contracts, registerState_next]
    by_cases hb : b = a
    · rw [if_pos hb]
      intro h
      have h2 := Option.some.inj h
      omega
    · rw [if_neg hb]
      intro h
      have h2 := hbd b i h
      omega
  · rw [registerState_next]
    omega

/-- Running registerAll over pairwise fresh, pairwise distinct accounts
succeeds, assigns consecutive ids starting at the current counter, leaves
other accounts untouched, and preserves the invariant. -/
theorem registerAll_fresh (l : List AccountId) :
    ∀ st : Contract, RegInv st →
      (∀ a ∈ l, st.sbt_contracts a = none) → l.Nodup →
      ∃ st2, registerAll st.admin st l = .ok st2 ∧
        st2.admin = st.admin ∧
        st2.next_ctr_id = st.next_ctr_id + l.length ∧
        (∀ k, ∀ hk : k < l.length,
          st2.sbt_contracts (l.get ⟨k, hk⟩) = some (st.next_ctr_id + k)) ∧
        (∀ b, b ∉ l → st2.sbt_contracts b = st.sbt_contracts b) ∧
        RegInv st2 := by
  induction l with
  | nil =>
    intro st hinv _ _
    refine ⟨st, rfl, rfl, rfl, ?_, fun b _ => rfl, hinv⟩
    intro k hk
    exact absurd hk (Nat.not_lt_zero k)
  | cons a l ih =>
    intro st hinv hfresh hnd
    have hfa : st.sbt_contracts a = none := hfresh a (by simp)
    have hanl : a ∉ l := (List.nodup_cons.mp hnd).1
    have hndl : l.Nodup := (List.nodup_cons.mp hnd).2
    have hinv1 : RegInv (registerState st a) := regInv_registerState st a hinv hfa
    have hfresh1 : ∀ b ∈ l, (registerState st a).sbt_contracts b = none := by
      intro b hb
      have hba : b ≠ a := fun h => hanl (h ▸ hb)
      rw [registerState_contracts, if_neg hba]
      exact hfresh b (by simp [hb])
    obtain ⟨st2, hrun, hadm, hnext, hids, hpres, hinv2⟩ :=
      ih (registerState st a) hinv1 hfresh1 hndl
    have hrun0 : registerAll st.admin st (a :: l) = .ok st2 := by
      show (match admin_add_sbt_issuer st.admin st a with
        | .ok p => registerAll st.admin p.2 l
        | .error e => .error e) = .ok st2
      rw [admin_add_eq]
      exact hrun
    refine ⟨st2, hrun0, hadm, ?_, ?_, ?_, hinv2⟩
    · rw [hnext, registerState_next]
      simp only [List.length_cons]
      omega
    · intro k hk
      cases k with
      | zero =>
        show st2.sbt_contracts a = some (st.next_ctr_id + 0)
        rw [hpres a hanl, registerState_contracts, if_pos rfl, Nat.add_zero]
      | succ k =>
        have hk2 : k < l.length := by
          simp only [List.length_cons] at hk
          omega
        show st2.sbt_contracts (l.get ⟨k, hk2⟩) = some (st.next_ctr_id + (k + 1))
        rw [hids k hk2, registerState_next]
        simp only [Option.some.injEq]
        omega
    · intro b hb
      have hba : b ≠ a := fun h => hb (by simp [h])
      have hbl : b ∉ l := fun h => hb (by simp [h])
      rw [hpres b hbl, registerState_contracts, if_neg hba]

/-- C2 amended: after any run of issuer registrations of pairwise distinct
accounts from a fresh contract, the account-to-id and id-to-account maps
are mutual inverses and the account registered k-th holds id k + 1, so
ids are handed out strictly increasing and never reused.  Distinctness is
required: re-registering an account overwrites its id while the stale
reverse entry survives (see the counterexample). -/
theorem c2_issuer_maps_mutual_inverse (admin : AccountId) (l : List AccountId)
    (hnd : l.Nodup) (st : Contract)
    (hrun : registerAll admin (Contract.new admin) l = .ok st) :
    InverseMaps st ∧
    (∀ k, ∀ hk : k < l.length, st.sbt_contracts (l.get ⟨k, hk⟩) = some (k + 1)) ∧
    st.next_ctr_id = l.length + 1 := by
  have h0 : RegInv (Contract.new admin) := by
    refine ⟨fun a i => ?_, fun a i h => Option.noConfusion h, Nat.le_refl 1⟩
    constructor
    · intro h
      exact Option.noConfusion h
    · intro h
      exact Option.noConfusion h
  obtain ⟨st2, hrun2, _, hnext, hids, _, hinv2⟩ :=
    registerAll_fresh l (Contract.new admin) h0 (fun a _ => rfl) hnd
  have hrun2a : registerAll admin (Contract.new admin) l = .ok st2 := hrun2
  rw [hrun] at hrun2a
  have hst : st = st2 := Except.ok.inj hrun2a
  subst hst
  refine ⟨hinv2.1, ?_, ?_⟩
  · intro k hk
    have h3 : st.sbt_contracts (l.get ⟨k, hk⟩) = some (1 + k) := hids k hk
    rw [h3]
    simp only [Option.some.injEq]
    omega
  · have h4 : st.next_ctr_id = 1 + l.length := hnext
    omega

/-- Witness for C2 on the run registering a.near then b.near: the maps
are mutual inverses, the two accounts hold ids 1 and 2, counter is 3. -/
theorem c2_witness :
    InverseMaps stAB ∧ stAB.sbt_contracts "a.near" = some 1 ∧
    stAB.sbt_contracts "b.near" = some 2 ∧ stAB.next_ctr_id = 3 := by
  have h := c2_issuer_maps_mutual_inverse "admin.near" ["a.near", "b.near"]
    (by decide) stAB rfl
  exact ⟨h.1, h.2.1 0 (by decide), h.2.1 1 (by decide), h.2.2⟩

/-- Counterexample for C2: registering alice.near twice is a run of public
operations after which the maps are not mutual inverses: the reverse map
still sends id 1 to alice.near while the forward map sends alice.near to
id 2. -/
theorem c2_counterexample :
    regTwiceResult = .ok (false, stTwice) ∧
    stTwice.ctr_id_map 1 = some "alice.near" ∧
    stTwice.sbt_contracts "alice.near" = some 2 ∧
    ¬ InverseMaps stTwice := by
  refine ⟨rfl, rfl, rfl, fun h => ?_⟩
  have h2 := (h "alice.near" 1).mpr rfl
  exact absurd h2 (by decide)

/-- C3 amended: admin_add_sbt_issuer returns false for an already
registered issuer and true for a first registration, but re-registration
is not idempotent: the call always binds the issuer to the fresh id
next_ctr_id, overwriting any previous id, and always advances the id
counter. -/
theorem c3_register_reallocates (st : Contract) (caller issuer : AccountId)
    (h : caller = st.admin) :
    ∃ st2, admin_add_sbt_issuer caller st issuer =
        .ok ((st.sbt_contracts issuer).isNone, st2) ∧
      st2.sbt_contracts issuer = some st.next_ctr_id ∧
      st2.next_ctr_id = st.next_ctr_id + 1 := by
  subst h
  refine ⟨registerState st issuer, admin_add_eq st issuer, ?_, rfl⟩
  simp [registerState, mapInsert]

/-- Witness for C3 on re-registering sbt1.near (which holds id 1) in the
single-issuer state: the call returns false yet binds the issuer to the
fresh id 2 and advances the counter to 3. -/
theorem c3_witness :
    ∃ st2, admin_add_sbt_issuer "sbt.near" stOne "sbt1.near" = .ok (false, st2) ∧
      st2.sbt_contracts "sbt1.near" = some 2 ∧
      st2.next_ctr_id = 3 :=
  c3_register_reallocates stOne "sbt.near" "sbt1.near" rfl

/-- Counterexample for C3: re-registering alice.near returns false as
claimed, but the issuer does not keep id 1: it is rebound to the newly
allocated id 2, and the id counter advances to 3. -/
theorem c3_counterexample :
    regTwiceResult.map Prod.fst = .ok false ∧
    stTwice.sbt_contracts "alice.near" = some 2 ∧
    stTwice.sbt_contracts "alice.near" ≠ some 1 ∧
    stTwice.next_ctr_id = 3 :=
  ⟨rfl, rfl, by decide, rfl⟩

end Registry
